import Mathlib

/-!
# kinc: cluster lifecycle commands

A shallow embedding of the `create cluster`, `delete cluster` and `get clusters`
commands of kinc (`cmd/create.go`, `cmd/delete.go`, `cmd/get.go`).

Go strings are modelled by `String` (sequences of characters; the program only
ever splits on, trims and searches for ASCII text).  Every call of
`exec.Command("podman", ...)` is modelled as a request to an arbitrary
`Runtime`, a state-passing function answering an argument vector with an exit
error (if any) and the captured output.  Each request and its answer is
recorded in a trace, so that what a command attempted can be stated.
Progress messages printed with `fmt.Printf` do not influence control flow and
are left out.
-/

namespace Kinc

/-! ## Library primitives -/

/-- The verb `%d` of `fmt.Sprintf` at a non-negative integer: its decimal numeral. -/
def fmtD (n : Nat) : String := Nat.repr n

/-- Value of a list of decimal digit characters, most significant first. -/
def decimalValue (cs : List Char) : Nat :=
  cs.foldl (fun acc c => 10 * acc + (c.toNat - 48)) 0

/-- Executable test that `sub` occurs at the front of `s`. -/
def hasPrefixChars : List Char → List Char → Bool
  | [], _ => true
  | _ :: _, [] => false
  | a :: sub, b :: s => a == b && hasPrefixChars sub s

/-- Executable substring search on character lists: try every start position. -/
def containsChars (sub : List Char) : List Char → Bool
  | [] => hasPrefixChars sub []
  | c :: s => hasPrefixChars sub (c :: s) || containsChars sub s

/-- Go `strings.Contains(s, substr)`. -/
def stringsContains (s substr : String) : Bool := containsChars substr.data s.data

/-! ## Node names derived by `createClusterRun` -/

/-- Network name: `fmt.Sprintf("kinc-%s", clusterName)`. -/
def networkNameOf (clusterName : String) : String := "kinc-" ++ clusterName

/-- Name computed in iteration `i` (0-based) of the control-plane loop:
`<cluster>-control-plane`, overwritten by `<cluster>-control-plane-<i+1>` when
more than one control-plane node is requested. -/
def controlPlaneNodeName (clusterName : String) (controlPlaneNodes : Int) (i : Nat) : String :=
  if controlPlaneNodes > 1 then clusterName ++ "-control-plane-" ++ fmtD (i + 1)
  else clusterName ++ "-control-plane"

/-- Name computed in iteration `i` (0-based) of the worker loop. -/
def workerNodeName (clusterName : String) (i : Nat) : String :=
  clusterName ++ "-worker-" ++ fmtD (i + 1)

/-- Names visited by `for i := 0; i < controlPlaneNodes; i++`, in loop order. -/
def controlPlaneNames (clusterName : String) (controlPlaneNodes : Int) : List String :=
  (List.range controlPlaneNodes.toNat).map (controlPlaneNodeName clusterName controlPlaneNodes)

/-- Names visited by `for i := 0; i < workerNodes; i++`, in loop order. -/
def workerNames (clusterName : String) (workerNodes : Int) : List String :=
  (List.range workerNodes.toNat).map (workerNodeName clusterName)

/-- Go `unicode.IsSpace`: the white-space characters removed by `strings.TrimSpace`. -/
def isSpace (c : Char) : Bool :=
  c.toNat = 9 || c.toNat = 10 || c.toNat = 11 || c.toNat = 12 || c.toNat = 13 || c.toNat = 32 ||
  c.toNat = 0x85 || c.toNat = 0xA0 || c.toNat = 0x1680 ||
  (0x2000 ≤ c.toNat && c.toNat ≤ 0x200A) ||
  c.toNat = 0x2028 || c.toNat = 0x2029 || c.toNat = 0x202F || c.toNat = 0x205F || c.toNat = 0x3000

/-- Character-list form of `strings.TrimSpace`: drop leading, then trailing, white space. -/
def trimSpaceChars (cs : List Char) : List Char :=
  ((cs.dropWhile isSpace).reverse.dropWhile isSpace).reverse

/-- Go `strings.TrimSpace(s)`. -/
def stringsTrimSpace (s : String) : String := ⟨trimSpaceChars s.data⟩

/-- Character-list form of `strings.Split` at a one-character separator: the
pieces between separators, so `n` separators always give `n + 1` pieces. -/
def splitChars (sep : Char) : List Char → List (List Char)
  | [] => [[]]
  | c :: cs =>
    if c = sep then [] :: splitChars sep cs
    else match splitChars sep cs with
      | [] => [[c]]
      | piece :: pieces => (c :: piece) :: pieces

/-- Go `strings.Split(s, sep)` for the one-character separators the program uses. -/
def stringsSplit (s : String) (sep : Char) : List String :=
  (splitChars sep s.data).map String.mk

deriving instance DecidableEq for Except

/-! ## The container runtime as seen through `os/exec` -/

/-- Outcome of running one external command: `err` is `none` on exit status 0
and otherwise carries the text of the Go error; `output` is the captured output
(`Output` or `CombinedOutput`; empty for `Run`). -/
structure ExecResult where
  err : Option String
  output : String
deriving DecidableEq, Repr

/-- Argument vector of an external command, program name first. -/
abbrev Argv := List String

/-- An arbitrary container runtime: given its current state and an argument
vector it answers with a new state and the outcome of the command. -/
abbrev Runtime (σ : Type) := σ → Argv → σ × ExecResult

/-- Runtime state together with the record of every command run so far. -/
structure World (σ : Type) where
  state : σ
  trace : List (Argv × ExecResult)

/-- Run one external command (`exec.Command(argv...)` followed by `Run`,
`Output` or `CombinedOutput`) and record it. -/
def exec {σ : Type} (rt : Runtime σ) (w : World σ) (argv : Argv) : World σ × ExecResult :=
  (⟨(rt w.state argv).1, w.trace ++ [(argv, (rt w.state argv).2)]⟩, (rt w.state argv).2)

/-- Counting loop with early return:
`for i := start; i < start + n; i++ { if err := body(i); err != nil { return err } }`. -/
def forRange {σ : Type} (body : Nat → World σ → World σ × Option String) :
    Nat → Nat → World σ → World σ × Option String
  | 0, _, w => (w, none)
  | n + 1, i, w =>
    match body i w with
    | (w1, some err) => (w1, some err)
    | (w1, none) => forRange body n (i + 1) w1

/-! ## `cmd/create.go` -/

/-- `checkPodmanAvailable`: `podman --version`. -/
def checkPodmanAvailable {σ : Type} (rt : Runtime σ) (w : World σ) : World σ × Option String :=
  ((exec rt w ["podman", "--version"]).1, (exec rt w ["podman", "--version"]).2.err)

/-- Arguments of `podman network exists`. -/
def networkExistsArgs (networkName : String) : Argv := ["podman", "network", "exists", networkName]

/-- Arguments of `podman network create`. -/
def networkCreateArgs (networkName : String) : Argv := ["podman", "network", "create", networkName]

/-- `createPodmanNetwork`: reuse the network when the existence check exits 0,
otherwise create it. -/
def createPodmanNetwork {σ : Type} (rt : Runtime σ) (w : World σ) (networkName : String) :
    World σ × Option String :=
  let p := exec rt w (networkExistsArgs networkName)
  if p.2.err = none then (p.1, none)
  else
    let q := exec rt p.1 (networkCreateArgs networkName)
    match q.2.err with
    | some err =>
      (q.1, some ("failed to create network " ++ networkName ++ ": " ++ err ++ ", output: " ++ q.2.output))
    | none => (q.1, none)

/-- The `podman run` argument vector built by `createControlPlaneNode` and, identically,
by `createWorkerNode`. -/
def nodeRunArgs (nodeName networkName image : String) : Argv :=
  ["podman", "run", "-d",
   "--name", nodeName,
   "--network", networkName,
   "--privileged",
   "--cgroupns=host",
   "--tmpfs", "/tmp",
   "--tmpfs", "/run",
   "--tmpfs", "/run/lock",
   "--volume", "/sys/fs/cgroup:/sys/fs/cgroup:rw",
   "--restart", "unless-stopped",
   image,
   "/usr/local/bin/entrypoint",
   "/sbin/init"]

/-- `createControlPlaneNode` (the flag `isPrimary` is accepted and not used). -/
def createControlPlaneNode {σ : Type} (rt : Runtime σ) (w : World σ)
    (nodeName networkName image : String) (_isPrimary : Bool) : World σ × Option String :=
  let p := exec rt w (nodeRunArgs nodeName networkName image)
  match p.2.err with
  | some err =>
    (p.1, some ("failed to create container " ++ nodeName ++ ": " ++ err ++ ", output: " ++ p.2.output))
  | none => (p.1, none)

/-- `createWorkerNode`. -/
def createWorkerNode {σ : Type} (rt : Runtime σ) (w : World σ)
    (nodeName networkName image : String) : World σ × Option String :=
  let p := exec rt w (nodeRunArgs nodeName networkName image)
  match p.2.err with
  | some err =>
    (p.1, some ("failed to create container " ++ nodeName ++ ": " ++ err ++ ", output: " ++ p.2.output))
  | none => (p.1, none)

/-- Cluster name chosen by the commands: the first positional argument, `kinc` by default. -/
def clusterNameOf (args : List String) : String :=
  match args with
  | [] => "kinc"
  | a :: _ => a

/-- Body of the control-plane loop of `createClusterRun`. -/
def controlPlaneStep {σ : Type} (rt : Runtime σ) (clusterName networkName image : String)
    (controlPlaneNodes : Int) (i : Nat) (w : World σ) : World σ × Option String :=
  let nodeName := controlPlaneNodeName clusterName controlPlaneNodes i
  match createControlPlaneNode rt w nodeName networkName image (i == 0) with
  | (w1, some err) =>
    (w1, some ("failed to create control plane node " ++ nodeName ++ ": " ++ err))
  | (w1, none) => (w1, none)

/-- Body of the worker loop of `createClusterRun`. -/
def workerStep {σ : Type} (rt : Runtime σ) (clusterName networkName image : String)
    (i : Nat) (w : World σ) : World σ × Option String :=
  let nodeName := workerNodeName clusterName i
  match createWorkerNode rt w nodeName networkName image with
  | (w1, some err) => (w1, some ("failed to create worker node " ++ nodeName ++ ": " ++ err))
  | (w1, none) => (w1, none)

/-- `createClusterRun`, with the flag values `--image`, `--control-plane-nodes`
and `--worker-nodes` passed as arguments.  The result is the Go `error`
(`none` for `nil`). -/
def createClusterRun {σ : Type} (rt : Runtime σ) (w : World σ) (args : List String)
    (image : String) (controlPlaneNodes workerNodes : Int) : World σ × Option String :=
  let clusterName := clusterNameOf args
  match checkPodmanAvailable rt w with
  | (w1, some err) => (w1, some ("podman is required but not available: " ++ err))
  | (w1, none) =>
    let networkName := networkNameOf clusterName
    match createPodmanNetwork rt w1 networkName with
    | (w2, some err) => (w2, some ("failed to create network: " ++ err))
    | (w2, none) =>
      match forRange (controlPlaneStep rt clusterName networkName image controlPlaneNodes)
          controlPlaneNodes.toNat 0 w2 with
      | (w3, some err) => (w3, some err)
      | (w3, none) =>
        match forRange (workerStep rt clusterName networkName image) workerNodes.toNat 0 w3 with
        | (w4, some err) => (w4, some err)
        | (w4, none) => (w4, none)

/-! ## `cmd/delete.go` -/

/-- Arguments of the discovery listing issued by `getClusterContainers`. -/
def clusterPsArgs (clusterName : String) : Argv :=
  ["podman", "ps", "-a", "--format", "\x7b\x7b.Names\x7d\x7d",
   "--filter", "name=" ++ clusterName ++ "-"]

/-- The non-empty lines of the trimmed listing output, in order. -/
def containerLines (output : String) : List String :=
  (stringsSplit (stringsTrimSpace output) '\n').foldl
    (fun containers line => if line ≠ "" then containers ++ [line] else containers) []

/-- `getClusterContainers`. -/
def getClusterContainers {σ : Type} (rt : Runtime σ) (w : World σ) (clusterName : String) :
    World σ × Except String (List String) :=
  let p := exec rt w (clusterPsArgs clusterName)
  match p.2.err with
  | some err => (p.1, Except.error err)
  | none => (p.1, Except.ok (containerLines p.2.output))

/-- `removeContainer`: stop (outcome ignored), then force-remove. -/
def removeContainer {σ : Type} (rt : Runtime σ) (w : World σ) (containerName : String) :
    World σ × Option String :=
  let p := exec rt w ["podman", "stop", containerName]
  let q := exec rt p.1 ["podman", "rm", "-f", containerName]
  (q.1, q.2.err)

/-- `removeNetwork`. -/
def removeNetwork {σ : Type} (rt : Runtime σ) (w : World σ) (networkName : String) :
    World σ × Option String :=
  let p := exec rt w ["podman", "network", "rm", networkName]
  (p.1, p.2.err)

/-- `deleteClusterRun`.  A failed removal only prints a warning, so the loop and
the network step keep the world and drop the error. -/
def deleteClusterRun {σ : Type} (rt : Runtime σ) (w : World σ) (args : List String) :
    World σ × Option String :=
  let clusterName := clusterNameOf args
  match getClusterContainers rt w clusterName with
  | (w1, Except.error err) => (w1, some ("failed to get cluster containers: " ++ err))
  | (w1, Except.ok containers) =>
    if containers.length = 0 then (w1, none)
    else
      let w2 := containers.foldl (fun acc containerName => (removeContainer rt acc containerName).1) w1
      let networkName := networkNameOf clusterName
      let w3 := (removeNetwork rt w2 networkName).1
      (w3, none)

/-! ## `cmd/get.go` -/

/-- One row of `get clusters`. -/
structure ClusterInfo where
  Name : String
  Status : String
  Role : String
  Age : String
deriving DecidableEq, Repr

/-- Arguments of the listing issued by `listClusters`. -/
def listPsArgs : Argv :=
  ["podman", "ps", "-a", "--format",
   "\x7b\x7b.Names\x7d\x7d\t\x7b\x7b.Status\x7d\x7d\t\x7b\x7b.CreatedHuman\x7d\x7d",
   "--filter", "name=kinc-"]

/-- Role assigned to a container name by `listClusters`. -/
def roleOf (name : String) : String :=
  if stringsContains name "control-plane" then "control-plane" else "worker"

/-- Body of the `for _, line := range lines` loop of `listClusters`. -/
def listStep (clusters : List ClusterInfo) (line : String) : List ClusterInfo :=
  if line = "" then clusters
  else
    let parts := stringsSplit line '\t'
    if parts.length < 3 then clusters
    else
      let name := parts.getD 0 ""
      let status := parts.getD 1 ""
      let age := parts.getD 2 ""
      clusters ++ [{ Name := name, Status := status, Role := roleOf name, Age := age }]

/-- The parsing part of `listClusters`: from the raw output to the rows. -/
def parseClusters (output : String) : List ClusterInfo :=
  (stringsSplit (stringsTrimSpace output) '\n').foldl listStep []

/-- `listClusters`. -/
def listClusters {σ : Type} (rt : Runtime σ) (w : World σ) :
    World σ × Except String (List ClusterInfo) :=
  let p := exec rt w listPsArgs
  match p.2.err with
  | some err => (p.1, Except.error err)
  | none => (p.1, Except.ok (parseClusters p.2.output))

/-! ## A reference runtime

A small deterministic model of the podman commands the program issues, used to
run the commands on concrete inputs.  The general theorems below quantify over
every `Runtime` and do not depend on it. -/

/-- A container held by the reference runtime. -/
structure PodmanContainer where
  name : String
  status : String
  created : String
deriving DecidableEq, Repr

/-- State of the reference runtime. -/
structure PodmanState where
  available : Bool
  networks : List String
  containers : List PodmanContainer
deriving DecidableEq, Repr

/-- A runtime with no network and no container. -/
def PodmanState.empty : PodmanState := ⟨true, [], []⟩

/-- Output of `podman ps -a` restricted by `--filter name=<pattern>`: a
container matches when its name contains the pattern; one line per container,
all three columns when `wide` and only the name otherwise. -/
def podmanPs (s : PodmanState) (wide : Bool) (pattern : String) : String :=
  String.join ((s.containers.filter (fun c => stringsContains c.name pattern)).map
    (fun c => if wide then c.name ++ "\t" ++ c.status ++ "\t" ++ c.created ++ "\n"
              else c.name ++ "\n"))

/-- Exit with a non-zero status and no output. -/
def exitFailure (code : String) : ExecResult := ⟨some ("exit status " ++ code), ""⟩

/-- Effect of `podman stop n` on one container. -/
def markStopped (n : String) (c : PodmanContainer) : PodmanContainer :=
  if c.name = n then ⟨c.name, "Exited (0)", c.created⟩ else c

/-- The reference runtime. -/
def podman : Runtime PodmanState := fun s argv =>
  if s.available = false then
    (s, ⟨some "exec: \"podman\": executable file not found in $PATH", ""⟩)
  else
    match argv with
    | ["podman", "--version"] => (s, ⟨none, "podman version 5.2.2\n"⟩)
    | ["podman", "network", "exists", n] =>
      if n ∈ s.networks then (s, ⟨none, ""⟩) else (s, exitFailure "1")
    | ["podman", "network", "create", n] =>
      if n ∈ s.networks then (s, exitFailure "125")
      else (⟨s.available, s.networks ++ [n], s.containers⟩, ⟨none, n ++ "\n"⟩)
    | ["podman", "network", "rm", n] =>
      if n ∈ s.networks then (⟨s.available, s.networks.filter (fun m => m ≠ n), s.containers⟩, ⟨none, ""⟩)
      else (s, exitFailure "1")
    | ["podman", "stop", n] =>
      if s.containers.any (fun c => c.name = n) then
        (⟨s.available, s.networks, s.containers.map (markStopped n)⟩, ⟨none, ""⟩)
      else (s, exitFailure "125")
    | ["podman", "rm", "-f", n] =>
      if s.containers.any (fun c => c.name = n) then
        (⟨s.available, s.networks, s.containers.filter (fun c => c.name ≠ n)⟩, ⟨none, ""⟩)
      else (s, exitFailure "1")
    | ["podman", "ps", "-a", "--format", fmt, "--filter", flt] =>
      if hasPrefixChars "name=".data flt.data then
        (s, ⟨none, podmanPs s (stringsContains fmt "Status") ⟨flt.data.drop 5⟩⟩)
      else (s, exitFailure "125")
    | "podman" :: "run" :: "-d" :: "--name" :: n :: "--network" :: net :: _ =>
      if s.containers.any (fun c => c.name = n) then (s, exitFailure "125")
      else if net ∈ s.networks then
        (⟨s.available, s.networks, s.containers ++ [⟨n, "Up 1 second", "1 second ago"⟩]⟩, ⟨none, ""⟩)
      else (s, exitFailure "126")
    | _ => (s, exitFailure "125")

/-- The world before any command was run. -/
def World.start {σ : Type} (s : σ) : World σ := ⟨s, []⟩

/-- A runtime that lists like the reference runtime and refuses every other command. -/
def refusing : Runtime PodmanState := fun s argv =>
  match argv with
  | "podman" :: "ps" :: _ => podman s argv
  | _ => (s, exitFailure "1")

/-- A runtime holding the network and two nodes of cluster `demo`. -/
def demoState : PodmanState :=
  ⟨true, ["kinc-demo"],
   [⟨"demo-control-plane", "Up 2 minutes", "2 minutes ago"⟩,
    ⟨"demo-worker-1", "Up 2 minutes", "2 minutes ago"⟩]⟩

/-- A runtime holding the network of cluster `demo` and no container. -/
def orphanNetworkState : PodmanState := ⟨true, ["kinc-demo"], []⟩

/-- A runtime holding the network of `demo`, on which the name `demo-worker-1`
is already taken. -/
def takenNameState : PodmanState :=
  ⟨true, ["kinc-demo"], [⟨"demo-worker-1", "Exited (0)", "3 days ago"⟩]⟩

/-- A runtime holding the nodes of two clusters, `demo` and `prod`. -/
def twoClustersState : PodmanState :=
  ⟨true, ["kinc-demo", "kinc-prod"],
   [⟨"demo-control-plane", "Up 2 minutes", "2 minutes ago"⟩,
    ⟨"prod-control-plane-1", "Up 1 minute", "1 minute ago"⟩,
    ⟨"demo-worker-1", "Up 2 minutes", "2 minutes ago"⟩,
    ⟨"prod-control-plane-2", "Up 1 minute", "1 minute ago"⟩,
    ⟨"prod-worker-1", "Up 1 minute", "1 minute ago"⟩]⟩

/-! ## Vocabulary of the statements -/

/-- The argument vectors of the commands run so far, oldest first. -/
def traceCmds {σ : Type} (w : World σ) : List Argv := w.trace.map Prod.fst

/-- The row the listing reports for a record: its first three tab-delimited
fields, and the role read off the first. -/
def rowOfLine (line : String) : ClusterInfo :=
  { Name := (stringsSplit line '\t').getD 0 ""
    Status := (stringsSplit line '\t').getD 1 ""
    Role := roleOf ((stringsSplit line '\t').getD 0 "")
    Age := (stringsSplit line '\t').getD 2 "" }

/-- A record is well formed when it has at least three tab-delimited fields. -/
def wellFormed (line : String) : Bool := decide (3 ≤ (stringsSplit line '\t').length)

/-- Stop followed by forced removal, for each container in order. -/
def removalCmds (containers : List String) : List Argv :=
  containers.flatMap (fun c => [["podman", "stop", c], ["podman", "rm", "-f", c]])

/-- Removal of a cluster's network. -/
def networkRmArgs (networkName : String) : Argv := ["podman", "network", "rm", networkName]

/-- A step failed: the command exited non-zero and it is not the existence probe
of the cluster network, whose non-zero exit only means that the network is absent. -/
def stepFailed (networkName : String) (e : Argv × ExecResult) : Bool :=
  e.2.err.isSome && decide (e.1 ≠ networkExistsArgs networkName)

/-- The answer of the runtime to the existence probe, asked right after the availability
check in state `s`: `true` when the network is reported present. -/
def probeFound {σ : Type} (rt : Runtime σ) (s : σ) (networkName : String) : Bool :=
  decide ((rt (rt s ["podman", "--version"]).1 (networkExistsArgs networkName)).2.err = none)

/-- The ordered commands of a complete `create`: availability check, network step
(probe, and creation unless the network was found), control-plane creations in index
order, worker creations in index order. -/
def createPlan (clusterName image : String) (controlPlaneNodes workerNodes : Int)
    (found : Bool) : List Argv :=
  [["podman", "--version"], networkExistsArgs (networkNameOf clusterName)] ++
    (if found then [] else [networkCreateArgs (networkNameOf clusterName)]) ++
    (controlPlaneNames clusterName controlPlaneNodes).map
      (fun n => nodeRunArgs n (networkNameOf clusterName) image) ++
    (workerNames clusterName workerNodes).map
      (fun n => nodeRunArgs n (networkNameOf clusterName) image)

/-- An error message names the node whose creation is the command `c`, if `c` is one. -/
def MsgNames (networkName image : String) (c : Argv) (msg : String) : Prop :=
  ∀ node, c = nodeRunArgs node networkName image → node.data <:+: msg.data

/-- Fail-fast execution of a plan: the recorded steps follow the plan one by one, a step
that fails is the last one recorded and yields an error, and without a failure the
whole plan is recorded and the outcome is success. -/
inductive RunsFailFast (networkName image : String) :
    List Argv → List (Argv × ExecResult) → Option String → Prop
  | done : RunsFailFast networkName image [] [] none
  | ok (e : Argv × ExecResult) (plan : List Argv) (seg : List (Argv × ExecResult))
      (r : Option String) :
      stepFailed networkName e = false → RunsFailFast networkName image plan seg r →
      RunsFailFast networkName image (e.1 :: plan) (e :: seg) r
  | fail (e : Argv × ExecResult) (plan : List Argv) (msg : String) :
      stepFailed networkName e = true → MsgNames networkName image e.1 msg →
      RunsFailFast networkName image (e.1 :: plan) [e] (some msg)

/-! ## Facts about the library primitives -/

theorem digitChar_value : ∀ d, d < 10 → (Nat.digitChar d).toNat - 48 = d := by decide

theorem toDigitsCore_acc (fuel : Nat) : ∀ (n : Nat) (acc : List Char),
    Nat.toDigitsCore 10 fuel n acc = Nat.toDigitsCore 10 fuel n [] ++ acc := by
  induction fuel with
  | zero => intro n acc; simp [Nat.toDigitsCore]
  | succ f ih =>
    intro n acc
    simp only [Nat.toDigitsCore]
    by_cases h : n / 10 = 0
    · simp [h]
    · simp only [h, if_false]
      rw [ih (n / 10) (Nat.digitChar (n % 10) :: acc), ih (n / 10) [Nat.digitChar (n % 10)]]
      simp

theorem decimalValue_snoc (l : List Char) (c : Char) :
    decimalValue (l ++ [c]) = 10 * decimalValue l + (c.toNat - 48) := by
  simp [decimalValue, List.foldl_append]

theorem decimalValue_toDigitsCore (fuel : Nat) : ∀ n, n < fuel →
    decimalValue (Nat.toDigitsCore 10 fuel n []) = n := by
  induction fuel with
  | zero => intro n h; omega
  | succ f ih =>
    intro n hn
    simp only [Nat.toDigitsCore]
    by_cases h : n / 10 = 0
    · simp only [h, if_true]
      have hlt : n % 10 < 10 := Nat.mod_lt _ (by decide)
      have := digitChar_value (n % 10) hlt
      simp only [decimalValue, List.foldl]
      omega
    · simp only [h, if_false]
      rw [toDigitsCore_acc f (n / 10) [Nat.digitChar (n % 10)], decimalValue_snoc,
        ih (n / 10) (by omega), digitChar_value (n % 10) (Nat.mod_lt _ (by decide))]
      omega

/-- The numeral printed for `n` reads back as `n`. -/
theorem decimalValue_fmtD (n : Nat) : decimalValue (fmtD n).data = n := by
  simp only [fmtD, Nat.repr, Nat.toDigits, List.asString]
  exact decimalValue_toDigitsCore (n + 1) n (Nat.lt_succ_self n)

theorem fmtD_injective : Function.Injective fmtD := by
  intro a b h
  have := congrArg (fun s => decimalValue s.data) h
  simpa [decimalValue_fmtD] using this

theorem string_append_right_injective (s : String) : Function.Injective (fun t => s ++ t) := by
  intro a b h
  have h1 := congrArg String.data h
  simp only [String.data_append] at h1
  exact String.ext (List.append_cancel_left h1)

theorem hasPrefixChars_iff : ∀ (sub s : List Char), hasPrefixChars sub s = true ↔ sub <+: s
  | [], s => by simp [hasPrefixChars]
  | _ :: _, [] => by simp [hasPrefixChars]
  | a :: sub, b :: s => by
    simp [hasPrefixChars, List.cons_prefix_cons, hasPrefixChars_iff sub s]

theorem containsChars_iff (sub : List Char) : ∀ s : List Char, containsChars sub s = true ↔ sub <:+: s
  | [] => by
    simp only [containsChars, hasPrefixChars_iff, List.prefix_nil, List.infix_nil]
  | c :: s => by
    simp only [containsChars, Bool.or_eq_true, hasPrefixChars_iff, containsChars_iff sub s,
      List.infix_cons_iff]

/-- `strings.Contains` decides the occurrence of `substr` as a contiguous block of `s`. -/
theorem stringsContains_iff (s substr : String) :
    stringsContains s substr = true ↔ substr.data <:+: s.data :=
  containsChars_iff substr.data s.data

/-! ## Naming -/

theorem range_succ_map {α : Type} (f : Nat → α) (n : Nat) :
    (List.range n).map (fun i => f (i + 1)) = (List.range' 1 n).map f := by
  rw [List.range'_eq_map_range, List.map_map]
  apply List.map_congr_left
  intro i _
  simp [Nat.add_comm]

theorem numbered_injective (pre : String) : Function.Injective (fun i : Nat => pre ++ fmtD (i + 1)) := by
  intro a b h
  have := fmtD_injective (string_append_right_injective pre h)
  omega

/-- C1: the control-plane loop visits the single name `<cluster>-control-plane` when one
control-plane node is requested, and otherwise the names `<cluster>-control-plane-<k>` for
`k = 1, ..., C` in that order, `<k>` being the decimal numeral of `k`; there are `C` names
and they are pairwise distinct. -/
theorem controlPlaneNames_spec (clusterName : String) (C : Nat) :
    controlPlaneNames clusterName (C : Int) =
      (if C = 1 then [clusterName ++ "-control-plane"]
       else (List.range' 1 C).map (fun k => clusterName ++ "-control-plane-" ++ fmtD k)) ∧
    (controlPlaneNames clusterName (C : Int)).length = C ∧
    (controlPlaneNames clusterName (C : Int)).Nodup ∧
    (∀ k : Nat, decimalValue (fmtD k).data = k) := by
  refine ⟨?_, by simp [controlPlaneNames], ?_, decimalValue_fmtD⟩
  · by_cases h1 : C = 1
    · subst h1
      simp [controlPlaneNames, controlPlaneNodeName, List.range_succ]
    · simp only [h1, if_false]
      by_cases h0 : C = 0
      · subst h0
        simp [controlPlaneNames]
      · have hgt : (C : Int) > 1 := by omega
        have hf : controlPlaneNodeName clusterName (C : Int) =
            fun i => clusterName ++ "-control-plane-" ++ fmtD (i + 1) := by
          funext i
          simp [controlPlaneNodeName, hgt]
        simp only [controlPlaneNames, Int.toNat_ofNat, hf]
        exact range_succ_map (fun k => clusterName ++ "-control-plane-" ++ fmtD k) C
  · simp only [controlPlaneNames, Int.toNat_ofNat]
    by_cases hgt : (C : Int) > 1
    · have : controlPlaneNodeName clusterName (C : Int) =
          fun i => (clusterName ++ "-control-plane-") ++ fmtD (i + 1) := by
        funext i
        simp [controlPlaneNodeName, hgt, String.append_assoc]
      rw [this]
      exact (List.nodup_range C).map (numbered_injective _)
    · have hle : C ≤ 1 := by omega
      interval_cases C <;> simp [List.range_succ]

/-- C2: the worker loop visits the names `<cluster>-worker-<k>` for `k = 1, ..., W` in that
order, `<k>` being the decimal numeral of `k`; a single worker is `<cluster>-worker-1`,
whereas a single control-plane node is `<cluster>-control-plane` without a number. -/
theorem workerNames_spec (clusterName : String) (W : Nat) :
    workerNames clusterName (W : Int) =
      (List.range' 1 W).map (fun k => clusterName ++ "-worker-" ++ fmtD k) ∧
    (∀ k : Nat, decimalValue (fmtD k).data = k) ∧
    workerNames clusterName 1 = [clusterName ++ "-worker-1"] ∧
    controlPlaneNames clusterName 1 = [clusterName ++ "-control-plane"] := by
  refine ⟨?_, decimalValue_fmtD, ?_, ?_⟩
  · simp only [workerNames, Int.toNat_ofNat]
    exact range_succ_map (fun k => clusterName ++ "-worker-" ++ fmtD k) W
  · have h1 : fmtD 1 = "1" := by decide
    have h2 : "-worker-" ++ "1" = "-worker-1" := by decide
    simp [workerNames, workerNodeName, List.range_succ, h1, String.append_assoc, h2]
  · simp [controlPlaneNames, controlPlaneNodeName, List.range_succ]

/-! ## Listing -/

theorem listStep_role (acc : List ClusterInfo) (line : String)
    (h : ∀ info ∈ acc, info.Role = roleOf info.Name) :
    ∀ info ∈ listStep acc line, info.Role = roleOf info.Name := by
  unfold listStep
  split
  · exact h
  · simp only
    split
    · exact h
    · intro info hin
      rcases List.mem_append.mp hin with hin | hin
      · exact h info hin
      · rw [List.mem_singleton.mp hin]

theorem foldl_listStep_role (lines : List String) : ∀ acc : List ClusterInfo,
    (∀ info ∈ acc, info.Role = roleOf info.Name) →
    ∀ info ∈ lines.foldl listStep acc, info.Role = roleOf info.Name := by
  induction lines with
  | nil => intro acc h; simpa using h
  | cons l ls ih =>
    intro acc h
    simp only [List.foldl_cons]
    exact ih _ (listStep_role acc l h)

/-- C3: every row that `listClusters` builds from a listing output has role
`control-plane` exactly when its container name contains `control-plane` as a contiguous
substring, and role `worker` exactly when it does not. -/
theorem listed_role_iff_contains (output : String) (info : ClusterInfo)
    (h : info ∈ parseClusters output) :
    (info.Role = "control-plane" ↔ "control-plane".data <:+: info.Name.data) ∧
    (info.Role = "worker" ↔ ¬ "control-plane".data <:+: info.Name.data) := by
  have hr : info.Role = roleOf info.Name :=
    foldl_listStep_role _ [] (by simp) info h
  rw [hr, ← stringsContains_iff]
  unfold roleOf
  by_cases hc : stringsContains info.Name "control-plane" = true
  · simp only [hc, if_true, true_iff, not_true_eq_false, iff_false]
    decide
  · simp only [hc, if_false, not_false_eq_true, iff_true]
    decide

/-- Witness for C3 on a listing with one control-plane row. -/
theorem listed_role_iff_contains_witness :
    (⟨"kinc-control-plane", "Up", "control-plane", "now"⟩ : ClusterInfo) ∈
        parseClusters "kinc-control-plane\tUp\tnow\n" ∧
    (("control-plane" : String) = "control-plane" ↔
        "control-plane".data <:+: "kinc-control-plane".data) ∧
    (("control-plane" : String) = "worker" ↔
        ¬ "control-plane".data <:+: "kinc-control-plane".data) :=
  ⟨by decide,
   listed_role_iff_contains "kinc-control-plane\tUp\tnow\n"
     ⟨"kinc-control-plane", "Up", "control-plane", "now"⟩ (by decide)⟩

theorem stringsSplit_empty_length (sep : Char) : (stringsSplit "" sep).length = 1 := by
  simp [stringsSplit, splitChars]

theorem listStep_eq (acc : List ClusterInfo) (line : String) :
    listStep acc line = acc ++ ([line].filter wellFormed).map rowOfLine := by
  unfold listStep
  by_cases h0 : line = ""
  · subst h0
    have : wellFormed "" = false := by decide
    simp [this]
  · simp only [h0, if_false]
    by_cases h3 : (stringsSplit line '\t').length < 3
    · have : wellFormed line = false := by
        simp only [wellFormed, decide_eq_false_iff_not]
        omega
      simp [h3, this]
    · have : wellFormed line = true := by
        simp only [wellFormed, decide_eq_true_eq]
        omega
      simp [h3, this, rowOfLine]

theorem foldl_listStep_eq (lines : List String) : ∀ acc : List ClusterInfo,
    lines.foldl listStep acc = acc ++ (lines.filter wellFormed).map rowOfLine := by
  induction lines with
  | nil => intro acc; simp
  | cons l ls ih =>
    intro acc
    rw [List.foldl_cons, ih, listStep_eq]
    by_cases h : wellFormed l = true <;> simp [List.filter_cons, h]

/-- C7 (as amended): the rows are those of the well-formed lines of the output once the
white space around the whole output is trimmed, one row per such line, in the order of
the lines, with the first three fields copied to Name, Status and Age; and
`listClusters` fails only when the listing command itself fails, with that error. -/
theorem listClusters_rows {σ : Type} (rt : Runtime σ) (w : World σ) (output : String) :
    parseClusters output =
      ((stringsSplit (stringsTrimSpace output) '\n').filter wellFormed).map rowOfLine ∧
    (listClusters rt w).2 =
      (match (rt w.state listPsArgs).2.err with
       | some err => Except.error err
       | none => Except.ok (parseClusters (rt w.state listPsArgs).2.output)) := by
  constructor
  · simp [parseClusters, foldl_listStep_eq]
  · simp only [listClusters, exec]
    cases (rt w.state listPsArgs).2.err <;> rfl

/-- C7 fails as stated: the record `kinc-worker-1<TAB>Created<TAB>` of this output has
three tab-delimited fields (the third is empty), yet no row is returned for it, because
the trailing tab is trimmed together with the final line break. -/
theorem listClusters_rows_counterexample :
    "kinc-worker-1\tCreated\t" ∈ stringsSplit "kinc-worker-1\tCreated\t\n" '\n' ∧
    stringsSplit "kinc-worker-1\tCreated\t" '\t' = ["kinc-worker-1", "Created", ""] ∧
    parseClusters "kinc-worker-1\tCreated\t\n" = [] := by
  decide

/-- C4 fails on the code: `create cluster demo` with one control-plane and two worker
nodes succeeds on an empty reference runtime and leaves exactly the three containers,
but the listing filtered by `name=kinc-` reports none of them. -/
theorem get_clusters_misses_demo :
    (createClusterRun podman (World.start PodmanState.empty) ["demo"]
        "kindest/node:v1.31.2" 1 2).2 = none ∧
    (createClusterRun podman (World.start PodmanState.empty) ["demo"]
        "kindest/node:v1.31.2" 1 2).1.state.containers.map PodmanContainer.name =
      ["demo-control-plane", "demo-worker-1", "demo-worker-2"] ∧
    (listClusters podman (createClusterRun podman (World.start PodmanState.empty) ["demo"]
        "kindest/node:v1.31.2" 1 2).1).2 = Except.ok [] := by
  decide

/-! ## Deletion -/

theorem traceCmds_exec {σ : Type} (rt : Runtime σ) (w : World σ) (argv : Argv) :
    traceCmds (exec rt w argv).1 = traceCmds w ++ [argv] := by
  simp [traceCmds, exec]

theorem traceCmds_removeContainer {σ : Type} (rt : Runtime σ) (w : World σ) (c : String) :
    traceCmds (removeContainer rt w c).1 =
      traceCmds w ++ [["podman", "stop", c], ["podman", "rm", "-f", c]] := by
  simp [removeContainer, traceCmds_exec]

theorem traceCmds_removeAll {σ : Type} (rt : Runtime σ) (containers : List String) :
    ∀ w : World σ,
      traceCmds (containers.foldl (fun acc c => (removeContainer rt acc c).1) w) =
        traceCmds w ++ removalCmds containers := by
  induction containers with
  | nil => intro w; simp [removalCmds]
  | cons c cs ih =>
    intro w
    rw [List.foldl_cons, ih, traceCmds_removeContainer]
    simp [removalCmds]

theorem deleteClusterRun_found {σ : Type} (rt : Runtime σ) (s : σ) (args : List String)
    (h : (rt s (clusterPsArgs (clusterNameOf args))).2.err = none) :
    (deleteClusterRun rt (World.start s) args).2 = none ∧
    traceCmds (deleteClusterRun rt (World.start s) args).1 =
      (if containerLines (rt s (clusterPsArgs (clusterNameOf args))).2.output = [] then
        [clusterPsArgs (clusterNameOf args)]
      else
        [clusterPsArgs (clusterNameOf args)] ++
          removalCmds (containerLines (rt s (clusterPsArgs (clusterNameOf args))).2.output) ++
          [networkRmArgs (networkNameOf (clusterNameOf args))]) := by
  have hg : getClusterContainers rt (World.start s) (clusterNameOf args) =
      ((exec rt (World.start s) (clusterPsArgs (clusterNameOf args))).1,
        Except.ok (containerLines (rt s (clusterPsArgs (clusterNameOf args))).2.output)) := by
    simp only [getClusterContainers, exec, World.start, h]
  simp only [deleteClusterRun, hg]
  by_cases he : containerLines (rt s (clusterPsArgs (clusterNameOf args))).2.output = []
  · simp only [he, List.length_nil, if_true, traceCmds_exec, true_and]
    simp [traceCmds, World.start]
  · have hl : ¬ (containerLines (rt s (clusterPsArgs (clusterNameOf args))).2.output).length = 0 := by
      simpa using he
    simp only [hl, he, if_false, removeNetwork, traceCmds_exec, traceCmds_removeAll, networkRmArgs,
      true_and]
    simp [traceCmds, World.start]

/-- C5 (as amended): whenever discovery succeeds, `deleteClusterRun` returns success; if
no container was discovered, the discovery listing is the only command it runs (no stop,
no removal, no network removal); otherwise the last command it runs is the removal of
network `kinc-<clusterName>`. -/
theorem delete_success_network_unless_empty {σ : Type} (rt : Runtime σ) (s : σ)
    (args : List String) (h : (rt s (clusterPsArgs (clusterNameOf args))).2.err = none) :
    (deleteClusterRun rt (World.start s) args).2 = none ∧
    (if containerLines (rt s (clusterPsArgs (clusterNameOf args))).2.output = [] then
      traceCmds (deleteClusterRun rt (World.start s) args).1 = [clusterPsArgs (clusterNameOf args)]
    else
      (traceCmds (deleteClusterRun rt (World.start s) args).1).getLast? =
        some (networkRmArgs (networkNameOf (clusterNameOf args)))) := by
  obtain ⟨hret, htr⟩ := deleteClusterRun_found rt s args h
  refine ⟨hret, ?_⟩
  rw [htr]
  by_cases he : containerLines (rt s (clusterPsArgs (clusterNameOf args))).2.output = []
  · simp [he]
  · rw [if_neg he, if_neg he, List.getLast?_append]
    rfl

/-- Witness for C5 on the reference runtime holding two nodes of `demo`. -/
theorem delete_success_network_unless_empty_witness :
    (podman demoState (clusterPsArgs (clusterNameOf ["demo"]))).2.err = none ∧
    (deleteClusterRun podman (World.start demoState) ["demo"]).2 = none ∧
    (if containerLines (podman demoState (clusterPsArgs (clusterNameOf ["demo"]))).2.output = [] then
      traceCmds (deleteClusterRun podman (World.start demoState) ["demo"]).1 =
        [clusterPsArgs (clusterNameOf ["demo"])]
    else
      (traceCmds (deleteClusterRun podman (World.start demoState) ["demo"]).1).getLast? =
        some (networkRmArgs (networkNameOf (clusterNameOf ["demo"])))) :=
  ⟨by decide, delete_success_network_unless_empty podman demoState ["demo"] (by decide)⟩

/-- C5 fails as stated: with the network `kinc-demo` present and no container of `demo`,
discovery finds nothing and `delete cluster demo` returns success after the listing
alone; no network removal is issued and the network is still there. -/
theorem delete_empty_skips_network_counterexample :
    containerLines (podman orphanNetworkState (clusterPsArgs "demo")).2.output = [] ∧
    (deleteClusterRun podman (World.start orphanNetworkState) ["demo"]).2 = none ∧
    traceCmds (deleteClusterRun podman (World.start orphanNetworkState) ["demo"]).1 =
      [clusterPsArgs "demo"] ∧
    networkRmArgs "kinc-demo" ∉
      traceCmds (deleteClusterRun podman (World.start orphanNetworkState) ["demo"]).1 ∧
    (deleteClusterRun podman (World.start orphanNetworkState) ["demo"]).1.state.networks =
      ["kinc-demo"] := by
  decide

/-- C6: when discovery succeeds with a non-empty list of containers then, whatever the
runtime answers to any command, `deleteClusterRun` runs after the listing exactly: for
each discovered container in order a stop and then one forced removal, and finally the
removal of network `kinc-<clusterName>`; and it returns success. -/
theorem delete_attempts_all {σ : Type} (rt : Runtime σ) (s : σ) (args : List String)
    (h : (rt s (clusterPsArgs (clusterNameOf args))).2.err = none)
    (hne : containerLines (rt s (clusterPsArgs (clusterNameOf args))).2.output ≠ []) :
    (deleteClusterRun rt (World.start s) args).2 = none ∧
    traceCmds (deleteClusterRun rt (World.start s) args).1 =
      [clusterPsArgs (clusterNameOf args)] ++
        (containerLines (rt s (clusterPsArgs (clusterNameOf args))).2.output).flatMap
          (fun c => [["podman", "stop", c], ["podman", "rm", "-f", c]]) ++
        [["podman", "network", "rm", "kinc-" ++ clusterNameOf args]] := by
  obtain ⟨hret, htr⟩ := deleteClusterRun_found rt s args h
  refine ⟨hret, ?_⟩
  rw [htr, if_neg hne]
  rfl

/-- Witness for C6: two containers are discovered and the runtime refuses every stop,
removal and network removal; all five attempts are made and the result is success. -/
theorem delete_attempts_all_witness :
    containerLines (refusing demoState (clusterPsArgs (clusterNameOf ["demo"]))).2.output =
      ["demo-control-plane", "demo-worker-1"] ∧
    (deleteClusterRun refusing (World.start demoState) ["demo"]).1.trace.map
        (fun e => e.2.err.isSome) = [false, true, true, true, true, true] ∧
    (deleteClusterRun refusing (World.start demoState) ["demo"]).2 = none ∧
    traceCmds (deleteClusterRun refusing (World.start demoState) ["demo"]).1 =
      [clusterPsArgs (clusterNameOf ["demo"])] ++
        (containerLines (refusing demoState (clusterPsArgs (clusterNameOf ["demo"]))).2.output).flatMap
          (fun c => [["podman", "stop", c], ["podman", "rm", "-f", c]]) ++
        [["podman", "network", "rm", "kinc-" ++ clusterNameOf ["demo"]]] :=
  ⟨by decide, by decide,
   delete_attempts_all refusing demoState ["demo"] (by decide) (by decide)⟩

/-! ## Creation -/

theorem runsFailFast_extend {net image : String} {p1 : List Argv}
    {s1 : List (Argv × ExecResult)} {r : Option String} (p2 : List Argv)
    (h : RunsFailFast net image p1 s1 r) (hr : r ≠ none) :
    RunsFailFast net image (p1 ++ p2) s1 r := by
  induction h with
  | done => exact absurd rfl hr
  | ok e plan seg r hok _ ih => exact RunsFailFast.ok e (plan ++ p2) seg r hok (ih hr)
  | fail e plan msg hf hm => exact RunsFailFast.fail e (plan ++ p2) msg hf hm

theorem runsFailFast_append {net image : String} {p1 p2 : List Argv}
    {s1 s2 : List (Argv × ExecResult)} {r1 r : Option String}
    (h1 : RunsFailFast net image p1 s1 r1) (hr : r1 = none)
    (h2 : RunsFailFast net image p2 s2 r) :
    RunsFailFast net image (p1 ++ p2) (s1 ++ s2) r := by
  induction h1 with
  | done => simpa using h2
  | ok e plan seg r1 hok _ ih => exact RunsFailFast.ok e (plan ++ p2) (seg ++ s2) r hok (ih hr)
  | fail e plan msg hf hm => exact absurd hr (by simp)

theorem runsFailFast_follows_plan {net image : String} {plan : List Argv}
    {seg : List (Argv × ExecResult)} {r : Option String}
    (h : RunsFailFast net image plan seg r) : seg.map Prod.fst <+: plan := by
  induction h with
  | done => simp
  | ok e plan seg r _ _ ih => simpa [List.cons_prefix_cons] using ih
  | fail e plan msg _ _ => simp [List.cons_prefix_cons]

theorem runsFailFast_success {net image : String} {plan : List Argv}
    {seg : List (Argv × ExecResult)} {r : Option String}
    (h : RunsFailFast net image plan seg r) (hr : r = none) :
    seg.map Prod.fst = plan ∧ ∀ e ∈ seg, stepFailed net e = false := by
  induction h with
  | done => simp
  | ok e plan seg r hok _ ih =>
    obtain ⟨h1, h2⟩ := ih hr
    refine ⟨by simp [h1], ?_⟩
    intro x hx
    rcases List.mem_cons.mp hx with hx | hx
    · rw [hx]; exact hok
    · exact h2 x hx
  | fail e plan msg _ _ => exact absurd hr (by simp)

theorem runsFailFast_error {net image : String} {plan : List Argv}
    {seg : List (Argv × ExecResult)} {r : Option String}
    (h : RunsFailFast net image plan seg r) (hr : r ≠ none) :
    ∃ e msg, seg.getLast? = some e ∧ stepFailed net e = true ∧ r = some msg ∧
      MsgNames net image e.1 msg := by
  induction h with
  | done => exact absurd rfl hr
  | ok e plan seg r hok _ ih =>
    obtain ⟨x, msg, hx, hf, hm⟩ := ih hr
    refine ⟨x, msg, ?_, hf, hm⟩
    cases seg with
    | nil => simp at hx
    | cons y ys => simpa [List.getLast?_cons_cons] using hx
  | fail e plan msg hf hm => exact ⟨e, msg, by simp, hf, rfl, hm⟩

theorem runsFailFast_dropLast {net image : String} {plan : List Argv}
    {seg : List (Argv × ExecResult)} {r : Option String}
    (h : RunsFailFast net image plan seg r) :
    ∀ e ∈ seg.dropLast, stepFailed net e = false := by
  induction h with
  | done => simp
  | ok e plan seg r hok _ ih =>
    cases seg with
    | nil => simp
    | cons y ys =>
      intro x hx
      rw [List.dropLast_cons₂] at hx
      rcases List.mem_cons.mp hx with hx | hx
      · rw [hx]; exact hok
      · exact ih x hx
  | fail e plan msg _ _ => simp

theorem nodeRunArgs_ne_probe (node net image net2 : String) :
    nodeRunArgs node net image ≠ networkExistsArgs net2 := by
  simp [nodeRunArgs, networkExistsArgs]

theorem nodeRunArgs_name_injective {a b net image : String}
    (h : nodeRunArgs a net image = nodeRunArgs b net image) : a = b := by
  simp only [nodeRunArgs, List.cons.injEq, true_and] at h
  exact h.1

theorem msgNames_wrapped (pre node rest net image : String) :
    MsgNames net image (nodeRunArgs node net image) (pre ++ node ++ rest) := by
  intro n hn
  rw [← nodeRunArgs_name_injective hn]
  simp only [String.data_append]
  exact List.infix_append _ _ _

theorem forRange_failFast {σ : Type} (rt : Runtime σ) (net image : String) (cmd : Nat → Argv)
    (body : Nat → World σ → World σ × Option String)
    (hbody : ∀ i w, (body i w).1 = (exec rt w (cmd i)).1 ∧
      (((rt w.state (cmd i)).2.err = none ∧ (body i w).2 = none) ∨
       ((rt w.state (cmd i)).2.err ≠ none ∧
          ∃ m, (body i w).2 = some m ∧ MsgNames net image (cmd i) m)))
    (hcmd : ∀ i, cmd i ≠ networkExistsArgs net) :
    ∀ (n i : Nat) (w : World σ), ∃ seg, (forRange body n i w).1.trace = w.trace ++ seg ∧
      RunsFailFast net image ((List.range' i n).map cmd) seg (forRange body n i w).2 := by
  intro n
  induction n with
  | zero => intro i w; exact ⟨[], by simp [forRange], by simpa [forRange] using RunsFailFast.done⟩
  | succ n ih =>
    intro i w
    obtain ⟨hw, hcase⟩ := hbody i w
    rcases hb : body i w with ⟨w1, r⟩
    rw [hb] at hw hcase
    simp only at hw hcase
    have htr : w1.trace = w.trace ++ [(cmd i, (rt w.state (cmd i)).2)] := by
      rw [hw]; rfl
    rcases hcase with ⟨herr, hr⟩ | ⟨herr, m, hr, hm⟩
    · subst hr
      obtain ⟨seg, hseg, hrun⟩ := ih (i + 1) w1
      refine ⟨(cmd i, (rt w.state (cmd i)).2) :: seg, ?_, ?_⟩
      · simp only [forRange, hb, hseg, htr, List.append_assoc, List.singleton_append]
      · simp only [forRange, hb, List.range'_succ, List.map_cons]
        exact RunsFailFast.ok (cmd i, (rt w.state (cmd i)).2) _ seg _
          (by simp [stepFailed, herr]) hrun
    · subst hr
      refine ⟨[(cmd i, (rt w.state (cmd i)).2)], ?_, ?_⟩
      · simp only [forRange, hb, htr]
      · simp only [forRange, hb, List.range'_succ, List.map_cons]
        refine RunsFailFast.fail (cmd i, (rt w.state (cmd i)).2) _ m ?_ hm
        have : (rt w.state (cmd i)).2.err.isSome = true := by
          cases h : (rt w.state (cmd i)).2.err with
          | none => exact absurd h herr
          | some _ => rfl
        simp [stepFailed, this, hcmd i]

theorem controlPlaneStep_spec {σ : Type} (rt : Runtime σ) (name net image : String) (C : Int)
    (i : Nat) (w : World σ) :
    (controlPlaneStep rt name net image C i w).1 =
        (exec rt w (nodeRunArgs (controlPlaneNodeName name C i) net image)).1 ∧
    (((rt w.state (nodeRunArgs (controlPlaneNodeName name C i) net image)).2.err = none ∧
        (controlPlaneStep rt name net image C i w).2 = none) ∨
     ((rt w.state (nodeRunArgs (controlPlaneNodeName name C i) net image)).2.err ≠ none ∧
        ∃ m, (controlPlaneStep rt name net image C i w).2 = some m ∧
          MsgNames net image (nodeRunArgs (controlPlaneNodeName name C i) net image) m)) := by
  simp only [controlPlaneStep, createControlPlaneNode, exec]
  cases h : (rt w.state (nodeRunArgs (controlPlaneNodeName name C i) net image)).2.err with
  | none => simp
  | some err =>
    refine ⟨rfl, Or.inr ⟨by simp, _, rfl, ?_⟩⟩
    rw [String.append_assoc]
    exact msgNames_wrapped "failed to create control plane node " _ _ net image

theorem workerStep_spec {σ : Type} (rt : Runtime σ) (name net image : String)
    (i : Nat) (w : World σ) :
    (workerStep rt name net image i w).1 =
        (exec rt w (nodeRunArgs (workerNodeName name i) net image)).1 ∧
    (((rt w.state (nodeRunArgs (workerNodeName name i) net image)).2.err = none ∧
        (workerStep rt name net image i w).2 = none) ∨
     ((rt w.state (nodeRunArgs (workerNodeName name i) net image)).2.err ≠ none ∧
        ∃ m, (workerStep rt name net image i w).2 = some m ∧
          MsgNames net image (nodeRunArgs (workerNodeName name i) net image) m)) := by
  simp only [workerStep, createWorkerNode, exec]
  cases h : (rt w.state (nodeRunArgs (workerNodeName name i) net image)).2.err with
  | none => simp
  | some err =>
    refine ⟨rfl, Or.inr ⟨by simp, _, rfl, ?_⟩⟩
    rw [String.append_assoc]
    exact msgNames_wrapped "failed to create worker node " _ _ net image

theorem createClusterRun_failFast {σ : Type} (rt : Runtime σ) (s : σ) (args : List String)
    (image : String) (C W : Int) :
    RunsFailFast (networkNameOf (clusterNameOf args)) image
      (createPlan (clusterNameOf args) image C W
        (probeFound rt s (networkNameOf (clusterNameOf args))))
      (createClusterRun rt (World.start s) args image C W).1.trace
      (createClusterRun rt (World.start s) args image C W).2 := by
  generalize hname : clusterNameOf args = name
  have hloops : ∀ (w2 : World σ) (pre : List Argv) (r : Option String),
      RunsFailFast (networkNameOf name) image pre w2.trace r → r = none →
      RunsFailFast (networkNameOf name) image
        (pre ++ (controlPlaneNames name C).map (fun n => nodeRunArgs n (networkNameOf name) image) ++
          (workerNames name W).map (fun n => nodeRunArgs n (networkNameOf name) image))
        (match forRange (controlPlaneStep rt name (networkNameOf name) image C) C.toNat 0 w2 with
          | (w3, some err) => (w3, some err)
          | (w3, none) =>
            match forRange (workerStep rt name (networkNameOf name) image) W.toNat 0 w3 with
            | (w4, some err) => (w4, some err)
            | (w4, none) => (w4, none)).1.trace
        (match forRange (controlPlaneStep rt name (networkNameOf name) image C) C.toNat 0 w2 with
          | (w3, some err) => (w3, some err)
          | (w3, none) =>
            match forRange (workerStep rt name (networkNameOf name) image) W.toNat 0 w3 with
            | (w4, some err) => (w4, some err)
            | (w4, none) => (w4, none)).2 := by
    intro w2 pre r hpre hr
    obtain ⟨seg1, ht1, hrun1⟩ := forRange_failFast rt (networkNameOf name) image
      (fun i => nodeRunArgs (controlPlaneNodeName name C i) (networkNameOf name) image)
      (controlPlaneStep rt name (networkNameOf name) image C)
      (controlPlaneStep_spec rt name (networkNameOf name) image C)
      (fun i => nodeRunArgs_ne_probe _ _ _ _) C.toNat 0 w2
    have hcp : (List.range' 0 C.toNat).map
        (fun i => nodeRunArgs (controlPlaneNodeName name C i) (networkNameOf name) image) =
        (controlPlaneNames name C).map (fun n => nodeRunArgs n (networkNameOf name) image) := by
      simp [controlPlaneNames, List.range_eq_range', List.map_map, Function.comp_def]
    rw [hcp] at hrun1
    rcases h3 : forRange (controlPlaneStep rt name (networkNameOf name) image C) C.toNat 0 w2
      with ⟨w3, r3⟩
    rw [h3] at ht1 hrun1
    simp only at ht1 hrun1
    cases r3 with
    | some err =>
      simp only [ht1, List.append_assoc]
      exact runsFailFast_append hpre hr (runsFailFast_extend _ hrun1 (by simp))
    | none =>
      obtain ⟨seg2, ht2, hrun2⟩ := forRange_failFast rt (networkNameOf name) image
        (fun i => nodeRunArgs (workerNodeName name i) (networkNameOf name) image)
        (workerStep rt name (networkNameOf name) image)
        (workerStep_spec rt name (networkNameOf name) image)
        (fun i => nodeRunArgs_ne_probe _ _ _ _) W.toNat 0 w3
      have hw : (List.range' 0 W.toNat).map
          (fun i => nodeRunArgs (workerNodeName name i) (networkNameOf name) image) =
          (workerNames name W).map (fun n => nodeRunArgs n (networkNameOf name) image) := by
        simp [workerNames, List.range_eq_range', List.map_map, Function.comp_def]
      rw [hw] at hrun2
      have hall : RunsFailFast (networkNameOf name) image
          (pre ++ ((controlPlaneNames name C).map (fun n => nodeRunArgs n (networkNameOf name) image) ++
            (workerNames name W).map (fun n => nodeRunArgs n (networkNameOf name) image)))
          (w2.trace ++ (seg1 ++ seg2))
          (forRange (workerStep rt name (networkNameOf name) image) W.toNat 0 w3).2 :=
        runsFailFast_append hpre hr (runsFailFast_append hrun1 rfl hrun2)
      rw [ht1] at ht2
      simp only
      rcases h4 : forRange (workerStep rt name (networkNameOf name) image) W.toNat 0 w3
        with ⟨w4, r4⟩
      rw [h4] at ht2 hall
      simp only at ht2 hall
      cases r4 with
      | some err => simpa only [ht2, List.append_assoc] using hall
      | none => simpa only [ht2, List.append_assoc] using hall
  simp only [createClusterRun, hname, checkPodmanAvailable, exec, World.start, List.nil_append]
  cases hv : (rt s ["podman", "--version"]).2.err with
  | some err =>
    simp only [createPlan]
    exact RunsFailFast.fail (["podman", "--version"], (rt s ["podman", "--version"]).2) _ _
      (by simp [stepFailed, hv, networkExistsArgs])
      (by intro node hn; simp [nodeRunArgs] at hn)
  | none =>
    have hstep1 : stepFailed (networkNameOf name)
        (["podman", "--version"], (rt s ["podman", "--version"]).2) = false := by
      simp [stepFailed, hv]
    have hstep2 : stepFailed (networkNameOf name) (networkExistsArgs (networkNameOf name),
        (rt (rt s ["podman", "--version"]).1 (networkExistsArgs (networkNameOf name))).2) = false := by
      simp [stepFailed]
    simp only [createPodmanNetwork, exec]
    by_cases hp : (rt (rt s ["podman", "--version"]).1
        (networkExistsArgs (networkNameOf name))).2.err = none
    · have hfound : probeFound rt s (networkNameOf name) = true := by simp [probeFound, hp]
      simp only [hp, if_true, hfound, createPlan, List.append_nil]
      exact hloops _ _ none (RunsFailFast.ok _ _ _ _ hstep1
        (RunsFailFast.ok _ _ _ _ hstep2 RunsFailFast.done)) rfl
    · have hfound : probeFound rt s (networkNameOf name) = false := by simp [probeFound, hp]
      simp only [hp, if_false, hfound, createPlan]
      cases hc : (rt (rt (rt s ["podman", "--version"]).1 (networkExistsArgs (networkNameOf name))).1
          (networkCreateArgs (networkNameOf name))).2.err with
      | some err =>
        have hfail : RunsFailFast (networkNameOf name) image
            [["podman", "--version"], networkExistsArgs (networkNameOf name),
              networkCreateArgs (networkNameOf name)]
            [(["podman", "--version"], (rt s ["podman", "--version"]).2),
              (networkExistsArgs (networkNameOf name),
                (rt (rt s ["podman", "--version"]).1 (networkExistsArgs (networkNameOf name))).2),
              (networkCreateArgs (networkNameOf name),
                (rt (rt (rt s ["podman", "--version"]).1 (networkExistsArgs (networkNameOf name))).1
                  (networkCreateArgs (networkNameOf name))).2)]
            (some ("failed to create network: " ++
              ("failed to create network " ++ networkNameOf name ++ ": " ++ err ++ ", output: " ++
                (rt (rt (rt s ["podman", "--version"]).1 (networkExistsArgs (networkNameOf name))).1
                  (networkCreateArgs (networkNameOf name))).2.output))) :=
          RunsFailFast.ok _ _ _ _ hstep1 (RunsFailFast.ok _ _ _ _ hstep2
            (RunsFailFast.fail (networkCreateArgs (networkNameOf name),
              (rt (rt (rt s ["podman", "--version"]).1 (networkExistsArgs (networkNameOf name))).1
                (networkCreateArgs (networkNameOf name))).2) [] _
              (by simp only [stepFailed, hc]; simp [networkExistsArgs, networkCreateArgs])
              (by intro node hn; simp [nodeRunArgs, networkCreateArgs] at hn)))
        have hext := runsFailFast_extend
          ((controlPlaneNames name C).map (fun n => nodeRunArgs n (networkNameOf name) image) ++
            (workerNames name W).map (fun n => nodeRunArgs n (networkNameOf name) image))
          hfail (by simp)
        simpa only [List.append_assoc, List.cons_append, List.nil_append] using hext
      | none =>
        have hstep3 : stepFailed (networkNameOf name) (networkCreateArgs (networkNameOf name),
            (rt (rt (rt s ["podman", "--version"]).1 (networkExistsArgs (networkNameOf name))).1
              (networkCreateArgs (networkNameOf name))).2) = false := by
          simp [stepFailed, hc]
        exact hloops _ _ none (RunsFailFast.ok _ _ _ _ hstep1
          (RunsFailFast.ok _ _ _ _ hstep2 (RunsFailFast.ok _ _ _ _ hstep3 RunsFailFast.done))) rfl

theorem createPlan_no_removal (name image : String) (C W : Int) (found : Bool) :
    ∀ c ∈ createPlan name image C W found,
      c.take 2 ≠ ["podman", "stop"] ∧ c.take 2 ≠ ["podman", "rm"] ∧
      c.take 3 ≠ ["podman", "network", "rm"] := by
  intro c hc
  simp only [createPlan, List.mem_append, List.mem_cons, List.mem_map, List.mem_singleton,
    List.not_mem_nil, or_false] at hc
  rcases hc with ((hc | hc) | ⟨n, _, hc⟩) | ⟨n, _, hc⟩
  · rcases hc with hc | hc <;> subst hc <;> simp [networkExistsArgs]
  · cases found
    · simp only [Bool.false_eq_true, if_false, List.mem_singleton] at hc
      subst hc
      simp [networkCreateArgs]
    · simp at hc
  · subst hc; simp [nodeRunArgs]
  · subst hc; simp [nodeRunArgs]

/-- C8: in a run of `createClusterRun` in which every command succeeds (the existence
probe of the network apart), the result is success and the commands run are, in this
order: the availability check; the probe for network `kinc-<name>`, followed by the
creation of that network exactly when the probe reported it absent; one `podman run`
per control-plane name in index order; one `podman run` per worker name in index order,
each with `--network kinc-<name>`.  The number of containers created is `C + W`. -/
theorem create_success_order {σ : Type} (rt : Runtime σ) (s : σ) (args : List String)
    (image : String) (C W : Int)
    (hok : ∀ e ∈ (createClusterRun rt (World.start s) args image C W).1.trace,
      stepFailed ("kinc-" ++ clusterNameOf args) e = false) :
    (createClusterRun rt (World.start s) args image C W).2 = none ∧
    traceCmds (createClusterRun rt (World.start s) args image C W).1 =
      [["podman", "--version"], ["podman", "network", "exists", "kinc-" ++ clusterNameOf args]] ++
      (if probeFound rt s ("kinc-" ++ clusterNameOf args) then []
       else [["podman", "network", "create", "kinc-" ++ clusterNameOf args]]) ++
      (controlPlaneNames (clusterNameOf args) C).map
        (fun n => nodeRunArgs n ("kinc-" ++ clusterNameOf args) image) ++
      (workerNames (clusterNameOf args) W).map
        (fun n => nodeRunArgs n ("kinc-" ++ clusterNameOf args) image) ∧
    (controlPlaneNames (clusterNameOf args) C).length + (workerNames (clusterNameOf args) W).length =
      C.toNat + W.toNat := by
  have hrun := createClusterRun_failFast rt s args image C W
  have hnone : (createClusterRun rt (World.start s) args image C W).2 = none := by
    by_contra hne
    obtain ⟨e, _, he, hf, _⟩ := runsFailFast_error hrun hne
    have := hok e (List.mem_of_getLast?_eq_some he)
    simp only [networkNameOf] at hf
    rw [hf] at this
    exact Bool.noConfusion this
  refine ⟨hnone, ?_, by simp [controlPlaneNames, workerNames]⟩
  exact (runsFailFast_success hrun hnone).1

/-- Witness for C8: `create cluster demo` with one control-plane and two worker nodes on
an empty reference runtime. -/
theorem create_success_order_witness :
    traceCmds (createClusterRun podman (World.start PodmanState.empty) ["demo"]
        "kindest/node:v1.31.2" 1 2).1 =
      [["podman", "--version"], ["podman", "network", "exists", "kinc-demo"],
       ["podman", "network", "create", "kinc-demo"],
       nodeRunArgs "demo-control-plane" "kinc-demo" "kindest/node:v1.31.2",
       nodeRunArgs "demo-worker-1" "kinc-demo" "kindest/node:v1.31.2",
       nodeRunArgs "demo-worker-2" "kinc-demo" "kindest/node:v1.31.2"] ∧
    (createClusterRun podman (World.start PodmanState.empty) ["demo"]
        "kindest/node:v1.31.2" 1 2).2 = none ∧
    traceCmds (createClusterRun podman (World.start PodmanState.empty) ["demo"]
        "kindest/node:v1.31.2" 1 2).1 =
      [["podman", "--version"], ["podman", "network", "exists", "kinc-" ++ clusterNameOf ["demo"]]] ++
      (if probeFound podman PodmanState.empty ("kinc-" ++ clusterNameOf ["demo"]) then []
       else [["podman", "network", "create", "kinc-" ++ clusterNameOf ["demo"]]]) ++
      (controlPlaneNames (clusterNameOf ["demo"]) 1).map
        (fun n => nodeRunArgs n ("kinc-" ++ clusterNameOf ["demo"]) "kindest/node:v1.31.2") ++
      (workerNames (clusterNameOf ["demo"]) 2).map
        (fun n => nodeRunArgs n ("kinc-" ++ clusterNameOf ["demo"]) "kindest/node:v1.31.2") ∧
    (controlPlaneNames (clusterNameOf ["demo"]) 1).length +
        (workerNames (clusterNameOf ["demo"]) 2).length = Int.toNat 1 + Int.toNat 2 :=
  ⟨by decide,
   create_success_order podman PodmanState.empty ["demo"] "kindest/node:v1.31.2" 1 2 (by decide)⟩

/-- C9: `createClusterRun` is fail-fast, for every request and every runtime.  The
commands it runs are a prefix of the ordered plan (availability check, network step,
control-plane creations 1..C, worker creations 1..W); only the last command run can be a
failed step; an error is returned exactly when some step failed, and without a failure
the whole plan is run.  If the runtime is unavailable the availability check is the only
command run.  If the last command run is the creation of a node and an error is
returned, the message contains the node name.  No stop, removal or network removal is
ever issued. -/
theorem create_fail_fast {σ : Type} (rt : Runtime σ) (s : σ) (args : List String)
    (image : String) (C W : Int) :
    traceCmds (createClusterRun rt (World.start s) args image C W).1 <+:
      createPlan (clusterNameOf args) image C W
        (probeFound rt s (networkNameOf (clusterNameOf args))) ∧
    (∀ e ∈ (createClusterRun rt (World.start s) args image C W).1.trace.dropLast,
      stepFailed (networkNameOf (clusterNameOf args)) e = false) ∧
    ((createClusterRun rt (World.start s) args image C W).2 ≠ none ↔
      ∃ e ∈ (createClusterRun rt (World.start s) args image C W).1.trace,
        stepFailed (networkNameOf (clusterNameOf args)) e = true) ∧
    ((createClusterRun rt (World.start s) args image C W).2 = none →
      traceCmds (createClusterRun rt (World.start s) args image C W).1 =
        createPlan (clusterNameOf args) image C W
          (probeFound rt s (networkNameOf (clusterNameOf args)))) ∧
    ((rt s ["podman", "--version"]).2.err ≠ none →
      traceCmds (createClusterRun rt (World.start s) args image C W).1 =
        [["podman", "--version"]]) ∧
    (∀ msg node res, (createClusterRun rt (World.start s) args image C W).2 = some msg →
      (createClusterRun rt (World.start s) args image C W).1.trace.getLast? =
        some (nodeRunArgs node (networkNameOf (clusterNameOf args)) image, res) →
      node.data <:+: msg.data) ∧
    (∀ c ∈ traceCmds (createClusterRun rt (World.start s) args image C W).1,
      c.take 2 ≠ ["podman", "stop"] ∧ c.take 2 ≠ ["podman", "rm"] ∧
      c.take 3 ≠ ["podman", "network", "rm"]) := by
  have hrun := createClusterRun_failFast rt s args image C W
  have hpre := runsFailFast_follows_plan hrun
  refine ⟨hpre, runsFailFast_dropLast hrun, ⟨?_, ?_⟩, ?_, ?_, ?_, ?_⟩
  · intro hne
    obtain ⟨e, _, he, hf, _⟩ := runsFailFast_error hrun hne
    exact ⟨e, List.mem_of_getLast?_eq_some he, hf⟩
  · rintro ⟨e, he, hf⟩ hnone
    have := (runsFailFast_success hrun hnone).2 e he
    rw [hf] at this
    exact Bool.noConfusion this
  · intro hnone
    exact (runsFailFast_success hrun hnone).1
  · intro hv
    cases hverr : (rt s ["podman", "--version"]).2.err with
    | none => exact absurd hverr hv
    | some err =>
      simp [createClusterRun, checkPodmanAvailable, exec, World.start, hverr, traceCmds]
  · intro msg node res hmsg hlast
    obtain ⟨e, m, he, _, hm, hnames⟩ := runsFailFast_error hrun (by simp [hmsg])
    rw [hlast] at he
    rw [hmsg] at hm
    cases hm
    cases he
    exact hnames node rfl
  · intro c hc
    exact createPlan_no_removal _ _ _ _ _ c (hpre.subset hc)

/-- Witness for C9: the name `demo-worker-1` is already taken, so of the plan for
`create cluster demo` with one control-plane and two workers the second worker is
never attempted, and the error names `demo-worker-1`. -/
theorem create_fail_fast_witness :
    traceCmds (createClusterRun podman (World.start takenNameState) ["demo"] "img" 1 2).1 =
      [["podman", "--version"], ["podman", "network", "exists", "kinc-demo"],
       nodeRunArgs "demo-control-plane" "kinc-demo" "img",
       nodeRunArgs "demo-worker-1" "kinc-demo" "img"] ∧
    (createClusterRun podman (World.start takenNameState) ["demo"] "img" 1 2).2 =
      some ("failed to create worker node demo-worker-1: " ++
        "failed to create container demo-worker-1: exit status 125, output: ") ∧
    traceCmds (createClusterRun podman (World.start takenNameState) ["demo"] "img" 1 2).1 <+:
      createPlan (clusterNameOf ["demo"]) "img" 1 2
        (probeFound podman takenNameState (networkNameOf (clusterNameOf ["demo"]))) :=
  ⟨by decide, by decide, (create_fail_fast podman takenNameState ["demo"] "img" 1 2).1⟩

/-! ## Ownership by name -/

theorem digitChar_ne_dash : ∀ d, d < 10 → Nat.digitChar d ≠ '-' := by decide

theorem toDigitsCore_chars (fuel : Nat) : ∀ (n : Nat) (acc : List Char),
    ∀ c ∈ Nat.toDigitsCore 10 fuel n acc, c ∈ acc ∨ ∃ d, d < 10 ∧ c = Nat.digitChar d := by
  induction fuel with
  | zero => intro n acc c hc; left; simpa [Nat.toDigitsCore] using hc
  | succ f ih =>
    intro n acc c hc
    simp only [Nat.toDigitsCore] at hc
    have hd : n % 10 < 10 := Nat.mod_lt _ (by decide)
    by_cases h : n / 10 = 0
    · simp only [h, if_true] at hc
      rcases List.mem_cons.mp hc with hc | hc
      · exact Or.inr ⟨n % 10, hd, hc⟩
      · exact Or.inl hc
    · simp only [h, if_false] at hc
      rcases ih _ _ c hc with hc | hc
      · rcases List.mem_cons.mp hc with hc | hc
        · exact Or.inr ⟨n % 10, hd, hc⟩
        · exact Or.inl hc
      · exact Or.inr hc

/-- A decimal numeral contains no dash. -/
theorem fmtD_no_dash (k : Nat) : '-' ∉ (fmtD k).data := by
  intro hmem
  simp only [fmtD, Nat.repr, Nat.toDigits, List.asString] at hmem
  rcases toDigitsCore_chars _ _ _ _ hmem with h | ⟨d, hd, h⟩
  · simp at h
  · exact digitChar_ne_dash d hd h.symm

theorem no_dash_prefix {r l : List Char} (h : r ++ ['-'] <+: l) (hl : '-' ∉ l) : False :=
  hl (h.subset (by simp))

theorem dash_split : ∀ (pre : List Char), '-' ∉ pre → ∀ (r post : List Char),
    r ++ ['-'] <+: pre ++ '-' :: post →
    r = pre ∨ ∃ r2, r = pre ++ '-' :: r2 ∧ r2 ++ ['-'] <+: post
  | [], _, r, post, h => by
    cases r with
    | nil => exact Or.inl rfl
    | cons c r1 =>
      simp only [List.nil_append, List.cons_append, List.cons_prefix_cons] at h
      exact Or.inr ⟨r1, by rw [h.1]; rfl, h.2⟩
  | p :: pre, hno, r, post, h => by
    have hp : '-' ≠ p := fun e => hno (List.mem_cons.mpr (Or.inl e))
    have hpre : '-' ∉ pre := fun e => hno (List.mem_cons_of_mem _ e)
    cases r with
    | nil =>
      simp only [List.nil_append, List.cons_append, List.cons_prefix_cons] at h
      exact absurd h.1 hp
    | cons c r1 =>
      simp only [List.cons_append, List.cons_prefix_cons] at h
      rcases dash_split pre hpre r1 post h.2 with h1 | ⟨r2, h1, h2⟩
      · exact Or.inl (by rw [h.1, h1])
      · exact Or.inr ⟨r2, by rw [h.1, h1]; rfl, h2⟩

theorem dash_prefix_cases {a b rest : List Char} (h : a ++ ['-'] <+: b ++ '-' :: rest) :
    a = b ∨ a ++ ['-'] <+: b ∨ ∃ r, a = b ++ '-' :: r ∧ r ++ ['-'] <+: rest := by
  have hb : b ++ ['-'] <+: b ++ '-' :: rest := ⟨rest, by simp⟩
  rcases Nat.lt_trichotomy a.length b.length with hlt | heq | hgt
  · right; left
    exact List.prefix_of_prefix_length_le h (List.prefix_append b ('-' :: rest)) (by simp; omega)
  · left
    have h1 : a ++ ['-'] <+: b ++ ['-'] :=
      List.prefix_of_prefix_length_le h hb (by simp; omega)
    exact List.append_cancel_right (h1.eq_of_length (by simp; omega))
  · right; right
    have h1 : b ++ ['-'] <+: a ++ ['-'] :=
      List.prefix_of_prefix_length_le hb h (by simp; omega)
    have h2 : b ++ ['-'] <+: a :=
      List.prefix_of_prefix_length_le h1 (List.prefix_append a ['-']) (by simp; omega)
    obtain ⟨r, hr⟩ := h2
    refine ⟨r, by rw [← hr]; simp, ?_⟩
    rw [← hr] at h
    have h3 : b ++ ('-' :: (r ++ ['-'])) <+: b ++ ('-' :: rest) := by simpa using h
    have h4 := (List.prefix_append_right_inj b).mp h3
    exact (List.cons_prefix_cons.mp h4).2

/-- Shape of the names derived for a cluster: the name, a dash, and one of
`control-plane`, `control-plane-<k>`, `worker-<k>`. -/
theorem derived_name_shape (B : String) (C W : Int) :
    ∀ n ∈ controlPlaneNames B C ++ workerNames B W,
      n.data = B.data ++ '-' :: ("control".data ++ '-' :: "plane".data) ∨
      (∃ k, n.data = B.data ++ '-' :: ("control".data ++ '-' :: ("plane".data ++ '-' :: (fmtD k).data))) ∨
      (∃ k, n.data = B.data ++ '-' :: ("worker".data ++ '-' :: (fmtD k).data)) := by
  intro n hn
  rcases List.mem_append.mp hn with h | h
  · obtain ⟨i, _, rfl⟩ := List.mem_map.mp h
    unfold controlPlaneNodeName
    split
    · exact Or.inr (Or.inl ⟨i + 1, by simp only [String.data_append, List.append_assoc]; rfl⟩)
    · exact Or.inl (by simp only [String.data_append, List.append_assoc]; rfl)
  · obtain ⟨i, _, rfl⟩ := List.mem_map.mp h
    exact Or.inr (Or.inr ⟨i + 1, by
      simp only [workerNodeName, String.data_append, List.append_assoc]; rfl⟩)

theorem foreign_prefix_impossible (A B : String) (C W : Int) (hAB : A ≠ B)
    (hA : ¬ (A ++ "-").data <+: B.data)
    (hB : A ≠ B ++ "-control" ∧ A ≠ B ++ "-control-plane" ∧ A ≠ B ++ "-worker") :
    ∀ n ∈ controlPlaneNames B C ++ workerNames B W, ¬ (A ++ "-").data <+: n.data := by
  intro n hn hpre
  have hd : (A ++ "-").data = A.data ++ ['-'] := by simp only [String.data_append]
  have hplane : '-' ∉ "plane".data := by decide
  have hcontrol : '-' ∉ "control".data := by decide
  have hworker : '-' ∉ "worker".data := by decide
  have key : ∀ rest, n.data = B.data ++ '-' :: rest →
      ∃ r, A.data = B.data ++ '-' :: r ∧ r ++ ['-'] <+: rest := by
    intro rest hshape
    rw [hd, hshape] at hpre
    rcases dash_prefix_cases hpre with h | h | h
    · exact absurd (String.ext h) hAB
    · exact absurd (by rw [hd]; exact h) hA
    · exact h
  have hc1 : A.data ≠ B.data ++ '-' :: "control".data := fun e =>
    hB.1 (String.ext (by rw [e]; simp only [String.data_append]; try rfl))
  have hc2 : A.data ≠ B.data ++ '-' :: ("control".data ++ '-' :: "plane".data) := fun e =>
    hB.2.1 (String.ext (by rw [e]; simp only [String.data_append]; try rfl))
  have hc3 : A.data ≠ B.data ++ '-' :: "worker".data := fun e =>
    hB.2.2 (String.ext (by rw [e]; simp only [String.data_append]; try rfl))
  rcases derived_name_shape B C W n hn with hs | ⟨k, hs⟩ | ⟨k, hs⟩
  · obtain ⟨r, hr, hrest⟩ := key _ hs
    rcases dash_split _ hcontrol r _ hrest with h1 | ⟨r2, _, h2⟩
    · exact hc1 (by rw [hr, h1])
    · exact no_dash_prefix h2 hplane
  · obtain ⟨r, hr, hrest⟩ := key _ hs
    rcases dash_split _ hcontrol r _ hrest with h1 | ⟨r2, h1, h2⟩
    · exact hc1 (by rw [hr, h1])
    · rcases dash_split _ hplane r2 _ h2 with h3 | ⟨r3, _, h4⟩
      · exact hc2 (by rw [hr, h1, h3])
      · exact no_dash_prefix h4 (fmtD_no_dash k)
  · obtain ⟨r, hr, hrest⟩ := key _ hs
    rcases dash_split _ hworker r _ hrest with h1 | ⟨r2, _, h2⟩
    · exact hc3 (by rw [hr, h1])
    · exact no_dash_prefix h2 (fmtD_no_dash k)

theorem getClusterContainers_result {σ : Type} (rt : Runtime σ) (w : World σ) (name : String) :
    (getClusterContainers rt w name).2 =
      (match (rt w.state (clusterPsArgs name)).2.err with
       | some err => Except.error err
       | none => Except.ok (containerLines (rt w.state (clusterPsArgs name)).2.output)) := by
  simp only [getClusterContainers, exec]
  cases (rt w.state (clusterPsArgs name)).2.err <;> rfl

theorem deleteClusterRun_cmds_subset {σ : Type} (rt : Runtime σ) (s : σ) (args : List String) :
    ∀ c ∈ traceCmds (deleteClusterRun rt (World.start s) args).1,
      c = clusterPsArgs (clusterNameOf args) ∨
      c ∈ removalCmds (containerLines (rt s (clusterPsArgs (clusterNameOf args))).2.output) ∨
      c = networkRmArgs (networkNameOf (clusterNameOf args)) := by
  intro c hc
  cases herr : (rt s (clusterPsArgs (clusterNameOf args))).2.err with
  | some err =>
    left
    simpa [deleteClusterRun, getClusterContainers, exec, World.start, herr, traceCmds] using hc
  | none =>
    rw [(deleteClusterRun_found rt s args herr).2] at hc
    split at hc
    · left; simpa using hc
    · simp only [List.mem_append, List.mem_singleton] at hc
      rcases hc with (hc | hc) | hc
      · exact Or.inl hc
      · exact Or.inr (Or.inl hc)
      · exact Or.inr (Or.inr hc)

theorem removalCmds_target {containers : List String} {n : String} :
    (["podman", "stop", n] ∈ removalCmds containers ∨
      ["podman", "rm", "-f", n] ∈ removalCmds containers) → n ∈ containers := by
  intro h
  simp only [removalCmds, List.mem_flatMap, List.mem_cons, List.mem_singleton,
    List.not_mem_nil, or_false] at h
  rcases h with ⟨c, hc, h⟩ | ⟨c, hc, h⟩
  · rcases h with h | h
    · simp only [List.cons.injEq, and_true, true_and] at h
      rw [h]; exact hc
    · simp at h
  · rcases h with h | h
    · simp at h
    · simp only [List.cons.injEq, and_true, true_and] at h
      rw [h]; exact hc

/-- C10 (as amended): let `A` and `B` be distinct cluster names such that `A-` is not
a prefix of `B` and `A` is none of `B-control`, `B-control-plane`, `B-worker`.  Then no
container name that create derives for cluster `B` (control-plane or worker, any index)
has the prefix `A-` on which `getClusterContainers` filters.  Hence, on every runtime
whose listing for that filter returns only names with the prefix `A-`, no node name of
`B` is among the containers discovered for `A`, and `delete cluster A` issues neither a
stop nor a removal of a node of `B`. -/
theorem foreign_nodes_untouched {σ : Type} (rt : Runtime σ) (s : σ) (A B : String)
    (C W : Int) (hAB : A ≠ B)
    (hA : ¬ (A ++ "-").data <+: B.data)
    (hB : A ≠ B ++ "-control" ∧ A ≠ B ++ "-control-plane" ∧ A ≠ B ++ "-worker")
    (hfilter : ∀ n ∈ containerLines (rt s (clusterPsArgs A)).2.output,
      (A ++ "-").data <+: n.data) :
    (clusterPsArgs A).getLast? = some ("name=" ++ A ++ "-") ∧
    (∀ n ∈ controlPlaneNames B C ++ workerNames B W, ¬ (A ++ "-").data <+: n.data) ∧
    (∀ n ∈ controlPlaneNames B C ++ workerNames B W, ∀ cs,
      (getClusterContainers rt (World.start s) A).2 = Except.ok cs → n ∉ cs) ∧
    (∀ n ∈ controlPlaneNames B C ++ workerNames B W,
      ["podman", "stop", n] ∉ traceCmds (deleteClusterRun rt (World.start s) [A]).1 ∧
      ["podman", "rm", "-f", n] ∉ traceCmds (deleteClusterRun rt (World.start s) [A]).1) := by
  have hnames := foreign_prefix_impossible A B C W hAB hA hB
  have hnot : ∀ n ∈ controlPlaneNames B C ++ workerNames B W,
      n ∉ containerLines (rt s (clusterPsArgs A)).2.output :=
    fun n hn hmem => hnames n hn (hfilter n hmem)
  refine ⟨rfl, hnames, ?_, ?_⟩
  · intro n hn cs hcs hmem
    rw [getClusterContainers_result] at hcs
    simp only [World.start] at hcs
    cases herr : (rt s (clusterPsArgs A)).2.err with
    | some err => rw [herr] at hcs; cases hcs
    | none =>
      rw [herr] at hcs
      cases hcs
      exact hnot n hn hmem
  · intro n hn
    have hsub := deleteClusterRun_cmds_subset rt s [A]
    simp only [clusterNameOf] at hsub
    constructor
    · intro hmem
      rcases hsub _ hmem with h | h | h
      · simp [clusterPsArgs] at h
      · exact hnot n hn (removalCmds_target (Or.inl h))
      · simp [networkRmArgs] at h
    · intro hmem
      rcases hsub _ hmem with h | h | h
      · simp [clusterPsArgs] at h
      · exact hnot n hn (removalCmds_target (Or.inr h))
      · simp [networkRmArgs] at h

/-- Witness for C10: the reference runtime holds the nodes of `demo` and of `prod`;
`delete cluster demo` removes the two nodes of `demo` and touches no node of `prod`. -/
theorem foreign_nodes_untouched_witness :
    containerLines (podman twoClustersState (clusterPsArgs "demo")).2.output =
      ["demo-control-plane", "demo-worker-1"] ∧
    (deleteClusterRun podman (World.start twoClustersState) ["demo"]).1.state.containers.map
        PodmanContainer.name = ["prod-control-plane-1", "prod-control-plane-2", "prod-worker-1"] ∧
    ((clusterPsArgs "demo").getLast? = some ("name=" ++ "demo" ++ "-") ∧
    (∀ n ∈ controlPlaneNames "prod" 2 ++ workerNames "prod" 1, ¬ ("demo" ++ "-").data <+: n.data) ∧
    (∀ n ∈ controlPlaneNames "prod" 2 ++ workerNames "prod" 1, ∀ cs,
      (getClusterContainers podman (World.start twoClustersState) "demo").2 = Except.ok cs →
        n ∉ cs) ∧
    (∀ n ∈ controlPlaneNames "prod" 2 ++ workerNames "prod" 1,
      ["podman", "stop", n] ∉
        traceCmds (deleteClusterRun podman (World.start twoClustersState) ["demo"]).1 ∧
      ["podman", "rm", "-f", n] ∉
        traceCmds (deleteClusterRun podman (World.start twoClustersState) ["demo"]).1)) :=
  ⟨by decide, by decide,
   foreign_nodes_untouched podman twoClustersState "demo" "prod" 2 1
     (by decide) (by decide) (by decide) (by decide)⟩

/-- C10 fails as stated: `demo` and `demo-2` are distinct cluster names, yet the node
names of `demo-2` start with `demo-`; on the reference runtime, after creating cluster
`demo-2`, `delete cluster demo` discovers and removes both of its nodes. -/
theorem foreign_prefix_counterexample :
    ("demo" : String) ≠ "demo-2" ∧
    controlPlaneNames "demo-2" 1 ++ workerNames "demo-2" 1 =
      ["demo-2-control-plane", "demo-2-worker-1"] ∧
    ("demo" ++ "-").data <+: ("demo-2-control-plane" : String).data ∧
    ("demo" ++ "-").data <+: ("demo-2-worker-1" : String).data ∧
    (createClusterRun podman (World.start PodmanState.empty) ["demo-2"] "img" 1 1).1.state.containers.map
        PodmanContainer.name = ["demo-2-control-plane", "demo-2-worker-1"] ∧
    (deleteClusterRun podman
        (World.start (createClusterRun podman (World.start PodmanState.empty) ["demo-2"] "img" 1 1).1.state)
        ["demo"]).1.state.containers = [] := by
  decide

end Kinc
